import Mathlib

/-!
Shallow embedding of `obj23do.py`, an OBJ → 3DO mesh converter.

File I/O is stripped: `obj23do` takes the input file's decoded text and
returns the text that would be written to the output file
(`'\n'.join(c3do)`), or the Python exception raised before the output
file is opened.  Python floats are modelled as exact rationals.
-/

/-- Python exceptions the conversion can raise: `ValueError` (failed
`float`/`int` conversion, or unpacking a tuple of the wrong size) and
`IndexError` (tuple index out of range). -/
inductive ConvError where
  | valueError
  | indexError
deriving DecidableEq

/-- Python `str.split(sep)` for a one-character separator: splits at every
occurrence and keeps empty pieces, so `''.split(sep) = ['']`. -/
def splitOnChar (sep : Char) : List Char → List (List Char)
  | [] => [[]]
  | c :: rest =>
    if c = sep then [] :: splitOnChar sep rest
    else
      match splitOnChar sep rest with
      | [] => [[c]]
      | g :: gs => (c :: g) :: gs

/-- Python `line.startswith(p)` for the two-character prefixes `'v '` and
`'f '` used by `_parseobj`. -/
def startsWith2 (a b : Char) : List Char → Bool
  | x :: y :: _ => x == a && y == b
  | _ => false

/-- the characters Python's `float`/`int` strip from a numeric literal. -/
def isPyWS (c : Char) : Bool :=
  c == ' ' || c == '\t' || c == '\n' || c == '\r' || c == '\x0b' || c == '\x0c'

def stripWS (l : List Char) : List Char :=
  ((l.dropWhile isPyWS).reverse.dropWhile isPyWS).reverse

/-- an optional leading sign; `true` means negative. -/
def readSign : List Char → Bool × List Char
  | '+' :: r => (false, r)
  | '-' :: r => (true, r)
  | l => (false, l)

/-- value of a string of decimal digits. -/
def digitsVal (l : List Char) : ℕ :=
  l.foldl (fun acc c => acc * 10 + (c.toNat - 48)) 0

/-- the exponent suffix `e±ddd` of a float literal; `some 0` when absent,
`none` when malformed. -/
def pyExp : List Char → Option ℤ
  | [] => some 0
  | c :: r =>
    if c == 'e' || c == 'E' then
      let p := readSign r
      let ds := p.2.takeWhile Char.isDigit
      if ds.isEmpty || !(p.2.dropWhile Char.isDigit).isEmpty then none
      else some (if p.1 then -(digitsVal ds : ℤ) else (digitsVal ds : ℤ))
    else none

def applySign (neg : Bool) (q : ℚ) : ℚ := if neg then -q else q

/-- Python `float(tok)` on a finite decimal literal (optional sign,
optional fraction, optional exponent), as an exact rational; `none` models
`ValueError`.  The special literals `inf`/`nan` and digit-group
underscores are not modelled. -/
def pyFloat (tok : List Char) : Option ℚ :=
  let s := stripWS tok
  let p := readSign s
  let ip := p.2.takeWhile Char.isDigit
  let s2 := p.2.dropWhile Char.isDigit
  match s2 with
  | '.' :: r =>
    let fp := r.takeWhile Char.isDigit
    let s3 := r.dropWhile Char.isDigit
    if ip.isEmpty && fp.isEmpty then none
    else (pyExp s3).map fun e =>
      applySign p.1 (((digitsVal ip : ℚ) + (digitsVal fp : ℚ) / (10 : ℚ) ^ fp.length) * (10 : ℚ) ^ e)
  | _ =>
    if ip.isEmpty then none
    else (pyExp s2).map fun e => applySign p.1 ((digitsVal ip : ℚ) * (10 : ℚ) ^ e)

/-- Python `int(tok)` on a decimal literal; `none` models `ValueError`. -/
def pyInt (tok : List Char) : Option ℤ :=
  let s := stripWS tok
  let p := readSign s
  if p.2.isEmpty || !(p.2.all Char.isDigit) then none
  else some (if p.1 then -(digitsVal p.2 : ℤ) else (digitsVal p.2 : ℤ))

/-- first component of Python `tok.partition('/')`: everything before the
first slash, or the whole token when there is none. -/
def pyPartitionFst (tok : List Char) : List Char := tok.takeWhile (· != '/')

/-- evaluation of a Python list comprehension whose body may raise: the
first failure aborts the whole list. -/
def exMap (f : α → Except ConvError β) : List α → Except ConvError (List β)
  | [] => .ok []
  | a :: r =>
    match f a with
    | .error e => .error e
    | .ok b =>
      match exMap f r with
      | .error e => .error e
      | .ok bs => .ok (b :: bs)

/-- the slice `line.split(' ')[1:4]` (Python slicing clamps, so fewer than three
tokens yield a short list, extra tokens are dropped). -/
def sliceTokens (line : List Char) : List (List Char) :=
  ((splitOnChar ' ' line).drop 1).take 3

/-- the expression `float(k) * vscale` for one vertex-coordinate token. -/
def vtxTok (vscale : ℚ) (k : List Char) : Except ConvError ℚ :=
  match pyFloat k with
  | some q => .ok (q * vscale)
  | none => .error .valueError

/-- the expression `int(k.partition('/')[0]) - 1` for one face-index token. -/
def faceTok (k : List Char) : Except ConvError ℤ :=
  match pyInt (pyPartitionFst k) with
  | some n => .ok (n - 1)
  | none => .error .valueError

/-- the `v ` branch of `_parseobj`:
`[float(k) * vscale for k in line.split(' ')[1:4]]`. -/
def parseVertexLine (vscale : ℚ) (line : List Char) : Except ConvError (List ℚ) :=
  exMap (vtxTok vscale) (sliceTokens line)

/-- the `f ` branch of `_parseobj`:
`[int(k.partition('/')[0]) - 1 for k in line.split(' ')[1:4]]`. -/
def parseFaceLine (line : List Char) : Except ConvError (List ℤ) :=
  exMap faceTok (sliceTokens line)

/-- the line loop of `_parseobj`, building the `vertices` and `faces`
collectors in input order. -/
def parseLines (vscale : ℚ) : List (List Char) → Except ConvError (List (List ℚ) × List (List ℤ))
  | [] => .ok ([], [])
  | line :: rest =>
    if startsWith2 'v' ' ' line then
      match parseVertexLine vscale line with
      | .error e => .error e
      | .ok v =>
        match parseLines vscale rest with
        | .error e => .error e
        | .ok vf => .ok (v :: vf.1, vf.2)
    else if startsWith2 'f' ' ' line then
      match parseFaceLine line with
      | .error e => .error e
      | .ok f =>
        match parseLines vscale rest with
        | .error e => .error e
        | .ok vf => .ok (vf.1, f :: vf.2)
    else parseLines vscale rest

/-- the function `_parseobj(content, vscale)`: split the content on newlines and run the
line loop. -/
def _parseobj (content : String) (vscale : ℚ) :
    Except ConvError (List (List ℚ) × List (List ℤ)) :=
  parseLines vscale (splitOnChar '\n' content.data)

/-- Python `round(q)`: round half to even, on an exact rational. -/
def rhe (q : ℚ) : ℤ :=
  let f : ℤ := Int.ediv q.num (q.den : ℤ)
  if q - (f : ℚ) < 1 / 2 then f
  else if (1 : ℚ) / 2 < q - (f : ℚ) then f + 1
  else if f % 2 = 0 then f else f + 1

/-- Python `round(q, 3)`. -/
def pyRound3 (q : ℚ) : ℚ := ((rhe (q * 1000) : ℤ) : ℚ) / 1000

def pad2 (n : ℕ) : String := (if n < 10 then "0" else "") ++ toString n

def pad3 (n : ℕ) : String :=
  (if n < 10 then "00" else if n < 100 then "0" else "") ++ toString n

/-- Python `str` of the float `a / 1000`: shortest fraction, at least one
fractional digit (`1500 ↦ "1.5"`, `0 ↦ "0.0"`, `205 ↦ "0.205"`).  The sign
of an IEEE negative zero is not modelled. -/
def reprMilli (a : ℤ) : String :=
  let n := a.natAbs
  let ip := n / 1000
  let fp := n % 1000
  let frac := if fp % 10 != 0 then pad3 fp
    else if fp % 100 != 0 then pad2 (fp / 10)
    else toString (fp / 100)
  (if a < 0 then "-" else "") ++ toString ip ++ "." ++ frac

/-- Python `str` of a coordinate, which is always a whole multiple of
`1/1000` after `round(c, 3)`. -/
def fmtFloat (q : ℚ) : String := reprMilli (rhe (q * 1000))

/-- one vertex record:
`'{0}: {1} {2} {3}'.format(id, vtr[0], vtr[1], vtr[2])` after
`vtr = [round(c, 3) for c in vt]`; indexing an undersized tuple raises
`IndexError`. -/
def vertexRecord (id : ℕ) (vt : List ℚ) : Except ConvError String :=
  match vt.map pyRound3 with
  | x :: y :: z :: _ =>
    .ok (toString id ++ ": " ++ fmtFloat x ++ " " ++ fmtFloat y ++ " " ++ fmtFloat z)
  | _ => .error .indexError

/-- one face record:
`'{0}: {1} {2} {3} {4} {5}'.format(id, fc[0], fc[1], fc[2], color, shading)`. -/
def faceRecord (id : ℕ) (fc : List ℤ) (color : ℤ) (shading : String) :
    Except ConvError String :=
  match fc with
  | a :: b :: c :: _ =>
    .ok (toString id ++ ": " ++ toString a ++ " " ++ toString b ++ " " ++ toString c
         ++ " " ++ toString color ++ " " ++ shading)
  | _ => .error .indexError

/-- the `for id, vt in enumerate(objvtx)` loop of the vertex block. -/
def vertexLines (id : ℕ) : List (List ℚ) → Except ConvError (List String)
  | [] => .ok []
  | vt :: rest =>
    match vertexRecord id vt with
    | .error e => .error e
    | .ok r =>
      match vertexLines (id + 1) rest with
      | .error e => .error e
      | .ok rs => .ok (r :: rs)

/-- the `for id, fc in enumerate(objface)` loop of the face block. -/
def faceLines (color : ℤ) (shading : String) (id : ℕ) :
    List (List ℤ) → Except ConvError (List String)
  | [] => .ok []
  | fc :: rest =>
    match faceRecord id fc color shading with
    | .error e => .error e
    | .ok r =>
      match faceLines color shading (id + 1) rest with
      | .error e => .error e
      | .ok rs => .ok (r :: rs)

/-- the comprehension `objvtx = [(a, c, b) for (a, b, c) in objvtx]`; unpacking a tuple whose
size is not 3 raises `ValueError`. -/
def revV : List (List ℚ) → Except ConvError (List (List ℚ))
  | [] => .ok []
  | [a, b, c] :: rest =>
    match revV rest with
    | .error e => .error e
    | .ok vs => .ok ([a, c, b] :: vs)
  | _ :: _ => .error .valueError

/-- the `c3do` record collector of `obj23do`, before `'\n'.join`. -/
def obj23doRecords (content : String) (vscale : ℚ) (color : ℤ) (shading : String)
    (reversefaces : Bool) : Except ConvError (List String) :=
  match _parseobj content vscale with
  | .error e => .error e
  | .ok vf =>
    match (if reversefaces then revV vf.1 else .ok vf.1) with
    | .error e => .error e
    | .ok objvtx =>
      match vertexLines 0 objvtx with
      | .error e => .error e
      | .ok vlines =>
        match faceLines color shading 0 vf.2 with
        | .error e => .error e
        | .ok flines =>
          .ok (["3DO 1.30", "3DONAME GENERIC", "OBJECTS 1",
                "VERTICES " ++ toString objvtx.length,
                "POLYGONS " ++ toString vf.2.length,
                "PALETTE GENERIC.PAL", "TEXTURES 0",
                "OBJECT \"GENERIC\"", "TEXTURE -1",
                "VERTICES " ++ toString objvtx.length]
               ++ vlines ++ ("TRIANGLES " ++ toString vf.2.length) :: flines)

/-- the function `obj23do`, with file I/O stripped: the text written to the output file,
or the exception raised before it is opened. -/
def obj23do (content : String) (vscale : ℚ) (color : ℤ) (shading : String)
    (reversefaces : Bool) : Except ConvError String :=
  (obj23doRecords content vscale color shading reversefaces).map (String.intercalate "\n")

/-- Python `str.upper()` as the command line applies it to the `/SH:` value
before calling `obj23do`. -/
def shUpper (s : String) : String := ⟨s.data.map Char.toUpper⟩

deriving instance DecidableEq for Except

/-! ### Specification-side descriptions of the output layout -/

/-- the text of a vertex record whose coordinates are already rounded. -/
def vtxStr (i : ℕ) (x y z : ℚ) : String :=
  toString i ++ ": " ++ fmtFloat x ++ " " ++ fmtFloat y ++ " " ++ fmtFloat z

/-- the text of a face record. -/
def faceStr (j : ℕ) (a b c color : ℤ) (shading : String) : String :=
  toString j ++ ": " ++ toString a ++ " " ++ toString b ++ " " ++ toString c
    ++ " " ++ toString color ++ " " ++ shading

/-- the vertex block emitted for a vertex list, starting at index `k`
(well-formed vertices only; an undersized vertex gets a placeholder, but
every use below rules that case out). -/
def vmapIdx (k : ℕ) : List (List ℚ) → List String
  | [] => []
  | vt :: rest =>
    (match vt with
     | x :: y :: z :: _ => vtxStr k (pyRound3 x) (pyRound3 y) (pyRound3 z)
     | _ => "") :: vmapIdx (k + 1) rest

/-- the face block emitted for a face list, starting at index `k`. -/
def fmapIdx (color : ℤ) (shading : String) (k : ℕ) : List (List ℤ) → List String
  | [] => []
  | fc :: rest =>
    (match fc with
     | a :: b :: c :: _ => faceStr k a b c color shading
     | _ => "") :: fmapIdx color shading (k + 1) rest

/-- swap of the 2nd and 3rd coordinate of a (well-formed) vertex. -/
def swap23 : List ℚ → List ℚ
  | [a, b, c] => [a, c, b]
  | l => l

/-- the fixed header of the 3DO output for `nv` vertices and `nf` faces,
including the repeated `VERTICES` record. -/
def hdr3do (nv nf : ℕ) : List String :=
  ["3DO 1.30", "3DONAME GENERIC", "OBJECTS 1",
   "VERTICES " ++ toString nv, "POLYGONS " ++ toString nf,
   "PALETTE GENERIC.PAL", "TEXTURES 0", "OBJECT \"GENERIC\"", "TEXTURE -1",
   "VERTICES " ++ toString nv]

/-! ### Structural lemmas about the encoder -/

theorem vertexRecord_cons3 (k : ℕ) (x y z : ℚ) (rest : List ℚ) :
    vertexRecord k (x :: y :: z :: rest) =
      .ok (vtxStr k (pyRound3 x) (pyRound3 y) (pyRound3 z)) := rfl

theorem vertexRecord_short (k : ℕ) (vt : List ℚ) (h : vt.length < 3) :
    vertexRecord k vt = .error .indexError := by
  match vt, h with
  | [], _ => rfl
  | [_], _ => rfl
  | [_, _], _ => rfl
  | _ :: _ :: _ :: _, h =>
    simp only [List.length_cons] at h
    omega

theorem faceRecord_cons3 (k : ℕ) (a b c : ℤ) (rest : List ℤ) (color : ℤ) (sh : String) :
    faceRecord k (a :: b :: c :: rest) color sh = .ok (faceStr k a b c color sh) := rfl

theorem faceRecord_short (k : ℕ) (fc : List ℤ) (color : ℤ) (sh : String)
    (h : fc.length < 3) : faceRecord k fc color sh = .error .indexError := by
  match fc, h with
  | [], _ => rfl
  | [_], _ => rfl
  | [_, _], _ => rfl
  | _ :: _ :: _ :: _, h =>
    simp only [List.length_cons] at h
    omega

theorem vertexLines_ok (k : ℕ) (V : List (List ℚ)) (hV : ∀ v ∈ V, v.length = 3) :
    vertexLines k V = .ok (vmapIdx k V) := by
  induction V generalizing k with
  | nil => rfl
  | cons vt rest ih =>
    obtain ⟨x, y, z, rfl⟩ := List.length_eq_three.mp (hV vt (by simp))
    have hrest : ∀ v ∈ rest, v.length = 3 := fun v hv => hV v (by simp [hv])
    simp [vertexLines, vertexRecord_cons3, ih (k + 1) hrest, vmapIdx]

theorem faceLines_ok (color : ℤ) (sh : String) (k : ℕ) (F : List (List ℤ))
    (hF : ∀ f ∈ F, f.length = 3) :
    faceLines color sh k F = .ok (fmapIdx color sh k F) := by
  induction F generalizing k with
  | nil => rfl
  | cons fc rest ih =>
    obtain ⟨a, b, c, rfl⟩ := List.length_eq_three.mp (hF fc (by simp))
    have hrest : ∀ f ∈ rest, f.length = 3 := fun f hf => hF f (by simp [hf])
    simp [faceLines, faceRecord_cons3, ih (k + 1) hrest, fmapIdx]

theorem revV_ok (V : List (List ℚ)) (hV : ∀ v ∈ V, v.length = 3) :
    revV V = .ok (V.map swap23) := by
  induction V with
  | nil => rfl
  | cons vt rest ih =>
    obtain ⟨x, y, z, rfl⟩ := List.length_eq_three.mp (hV vt (by simp))
    have hrest : ∀ v ∈ rest, v.length = 3 := fun v hv => hV v (by simp [hv])
    simp [revV, ih hrest, swap23]

theorem swap23_length (v : List ℚ) : (swap23 v).length = v.length := by
  match v with
  | [a, b, c] => rfl
  | [] => rfl
  | [_] => rfl
  | [_, _] => rfl
  | _ :: _ :: _ :: _ :: _ => rfl

theorem vmapIdx_length (k : ℕ) (V : List (List ℚ)) : (vmapIdx k V).length = V.length := by
  induction V generalizing k with
  | nil => rfl
  | cons vt rest ih => simp [vmapIdx, ih]

theorem fmapIdx_length (color : ℤ) (sh : String) (k : ℕ) (F : List (List ℤ)) :
    (fmapIdx color sh k F).length = F.length := by
  induction F generalizing k with
  | nil => rfl
  | cons fc rest ih => simp [fmapIdx, ih]

theorem vmapIdx_get (k i : ℕ) (V : List (List ℚ)) (x y z : ℚ)
    (h : V.get? i = some [x, y, z]) :
    (vmapIdx k V).get? i = some (vtxStr (k + i) (pyRound3 x) (pyRound3 y) (pyRound3 z)) := by
  induction V generalizing k i with
  | nil => simp at h
  | cons vt rest ih =>
    cases i with
    | zero => simp_all [vmapIdx]
    | succ n =>
      simp only [List.get?] at h
      have := ih (k + 1) n h
      simpa [vmapIdx, Nat.add_assoc, Nat.add_comm 1 n] using this

theorem fmapIdx_get (color : ℤ) (sh : String) (k j : ℕ) (F : List (List ℤ)) (a b c : ℤ)
    (h : F.get? j = some [a, b, c]) :
    (fmapIdx color sh k F).get? j = some (faceStr (k + j) a b c color sh) := by
  induction F generalizing k j with
  | nil => simp at h
  | cons fc rest ih =>
    cases j with
    | zero => simp_all [fmapIdx]
    | succ n =>
      simp only [List.get?] at h
      have := ih (k + 1) n h
      simpa [fmapIdx, Nat.add_assoc, Nat.add_comm 1 n] using this

theorem obj23doRecords_eq (content : String) (s : ℚ) (co : ℤ) (sh : String)
    (V : List (List ℚ)) (F : List (List ℤ))
    (hp : _parseobj content s = .ok (V, F))
    (hV : ∀ v ∈ V, v.length = 3) (hF : ∀ f ∈ F, f.length = 3) :
    obj23doRecords content s co sh false =
      .ok (hdr3do V.length F.length ++ vmapIdx 0 V
           ++ ("TRIANGLES " ++ toString F.length) :: fmapIdx co sh 0 F) := by
  simp [obj23doRecords, hp, vertexLines_ok 0 V hV, faceLines_ok co sh 0 F hF, hdr3do]

theorem obj23doRecords_rev_eq (content : String) (s : ℚ) (co : ℤ) (sh : String)
    (V : List (List ℚ)) (F : List (List ℤ))
    (hp : _parseobj content s = .ok (V, F))
    (hV : ∀ v ∈ V, v.length = 3) (hF : ∀ f ∈ F, f.length = 3) :
    obj23doRecords content s co sh true =
      .ok (hdr3do V.length F.length ++ vmapIdx 0 (V.map swap23)
           ++ ("TRIANGLES " ++ toString F.length) :: fmapIdx co sh 0 F) := by
  have hV' : ∀ v ∈ V.map swap23, v.length = 3 := by
    intro v hv
    obtain ⟨w, hw, rfl⟩ := List.mem_map.mp hv
    rw [swap23_length]; exact hV w hw
  have hlen : (V.map swap23).length = V.length := List.length_map V swap23
  simp [obj23doRecords, hp, revV_ok V hV, vertexLines_ok 0 _ hV',
        faceLines_ok co sh 0 F hF, hdr3do, hlen]

/-! ### Lemmas about the parser -/

theorem exMap_ok_length (f : α → Except ConvError β) (xs : List α) (ys : List β)
    (h : exMap f xs = .ok ys) : ys.length = xs.length := by
  induction xs generalizing ys with
  | nil =>
    simp only [exMap] at h
    cases h
    rfl
  | cons a r ih =>
    simp only [exMap] at h
    cases hf : f a <;> rw [hf] at h
    · cases h
    · cases hr : exMap f r <;> rw [hr] at h
      · cases h
      · cases h
        simp [ih _ hr]

theorem exMap_vtxTok_scale (s : ℚ) (toks : List (List Char)) (V : List ℚ)
    (h : exMap (vtxTok 1) toks = .ok V) :
    exMap (vtxTok s) toks = .ok (V.map (· * s)) := by
  induction toks generalizing V with
  | nil =>
    simp only [exMap] at h
    cases h
    rfl
  | cons t rest ih =>
    simp only [exMap, vtxTok] at h ⊢
    cases hf : pyFloat t <;> rw [hf] at h
    · cases h
    · cases hr : exMap (vtxTok 1) rest <;> rw [hr] at h
      · cases h
      · cases h
        simp [ih _ hr, mul_one]

theorem parseLines_scale_ok (s : ℚ) (ls : List (List Char))
    (V : List (List ℚ)) (F : List (List ℤ))
    (h : parseLines 1 ls = .ok (V, F)) :
    parseLines s ls = .ok (V.map (List.map (· * s)), F) := by
  induction ls generalizing V F with
  | nil =>
    simp only [parseLines] at h
    cases h
    rfl
  | cons line rest ih =>
    simp only [parseLines] at h ⊢
    by_cases hv : startsWith2 'v' ' ' line = true
    · simp only [hv, if_true] at h ⊢
      cases hpv : parseVertexLine 1 line <;> rw [hpv] at h
      · cases h
      · cases hpl : parseLines 1 rest <;> rw [hpl] at h
        · cases h
        · cases h
          rename_i v vf
          rw [show parseVertexLine s line = .ok (v.map (· * s)) from
            exMap_vtxTok_scale s _ v hpv]
          rw [ih vf.1 vf.2 (by rw [hpl])]
          rfl
    · simp only [hv, if_false, Bool.false_eq_true] at h ⊢
      by_cases hf : startsWith2 'f' ' ' line = true
      · simp only [hf, if_true] at h ⊢
        cases hpf : parseFaceLine line <;> rw [hpf] at h
        · cases h
        · cases hpl : parseLines 1 rest <;> rw [hpl] at h
          · cases h
          · cases h
            rename_i f vf
            rw [ih vf.1 vf.2 (by rw [hpl])]
      · simp only [hf, if_false, Bool.false_eq_true] at h ⊢
        exact ih V F h

theorem _parseobj_scale (content : String) (s : ℚ)
    (V : List (List ℚ)) (F : List (List ℤ))
    (h : _parseobj content 1 = .ok (V, F)) :
    _parseobj content s = .ok (V.map (List.map (· * s)), F) :=
  parseLines_scale_ok s _ V F h

theorem parseLines_skip (s : ℚ) (ls : List (List Char))
    (h : ∀ l ∈ ls, startsWith2 'v' ' ' l = false ∧ startsWith2 'f' ' ' l = false) :
    parseLines s ls = .ok ([], []) := by
  induction ls with
  | nil => rfl
  | cons line rest ih =>
    obtain ⟨h1, h2⟩ := h line (by simp)
    simp [parseLines, h1, h2, ih (fun l hl => h l (by simp [hl]))]

theorem exists_cons3_of_le {α : Type _} (l : List α) (h : 3 ≤ l.length) :
    ∃ a b c t, l = a :: b :: c :: t := by
  match l, h with
  | a :: b :: c :: t, _ => exact ⟨a, b, c, t, rfl⟩

theorem vertexLines_short (k : ℕ) (V : List (List ℚ))
    (h : ∃ v ∈ V, v.length < 3) :
    vertexLines k V = .error .indexError := by
  induction V generalizing k with
  | nil => obtain ⟨v, hv, _⟩ := h; simp at hv
  | cons vt rest ih =>
    rcases Nat.lt_or_ge vt.length 3 with hshort | hge
    · simp [vertexLines, vertexRecord_short k vt hshort]
    · obtain ⟨x, y, z, t, rfl⟩ := exists_cons3_of_le vt hge
      obtain ⟨v, hv, hlen⟩ := h
      rcases List.mem_cons.mp hv with rfl | hv'
      · simp only [List.length_cons] at hlen; omega
      · simp [vertexLines, vertexRecord_cons3, ih (k + 1) ⟨v, hv', hlen⟩]

theorem faceLines_short (co : ℤ) (sh : String) (k : ℕ) (F : List (List ℤ))
    (h : ∃ fc ∈ F, fc.length < 3) :
    faceLines co sh k F = .error .indexError := by
  induction F generalizing k with
  | nil => obtain ⟨fc, hfc, _⟩ := h; simp at hfc
  | cons f0 rest ih =>
    rcases Nat.lt_or_ge f0.length 3 with hshort | hge
    · simp [faceLines, faceRecord_short k f0 co sh hshort]
    · obtain ⟨a, b, c, t, rfl⟩ := exists_cons3_of_le f0 hge
      obtain ⟨fc, hfc, hlen⟩ := h
      rcases List.mem_cons.mp hfc with rfl | hfc'
      · simp only [List.length_cons] at hlen; omega
      · simp [faceLines, faceRecord_cons3, ih (k + 1) ⟨fc, hfc', hlen⟩]

theorem vertexLines_cases (k : ℕ) (V : List (List ℚ)) :
    (∃ rs, vertexLines k V = .ok rs) ∨ vertexLines k V = .error .indexError := by
  induction V generalizing k with
  | nil => exact .inl ⟨[], rfl⟩
  | cons vt rest ih =>
    rcases Nat.lt_or_ge vt.length 3 with hshort | hge
    · exact .inr (by simp [vertexLines, vertexRecord_short k vt hshort])
    · obtain ⟨x, y, z, t, rfl⟩ := exists_cons3_of_le vt hge
      rcases ih (k + 1) with ⟨rs, hok⟩ | herr
      · refine .inl ⟨vtxStr k (pyRound3 x) (pyRound3 y) (pyRound3 z) :: rs, ?_⟩
        simp [vertexLines, vertexRecord_cons3, hok]
      · exact .inr (by simp [vertexLines, vertexRecord_cons3, herr])

theorem parseLines_v_mem (s : ℚ) (ls : List (List Char))
    (V : List (List ℚ)) (F : List (List ℤ)) (l : List Char)
    (h : parseLines s ls = .ok (V, F)) (hl : l ∈ ls)
    (hv : startsWith2 'v' ' ' l = true) :
    ∃ v ∈ V, v.length = (sliceTokens l).length := by
  induction ls generalizing V F with
  | nil => simp at hl
  | cons line rest ih =>
    simp only [parseLines] at h
    rcases List.mem_cons.mp hl with rfl | hl'
    · rw [if_pos hv] at h
      cases hpv : parseVertexLine s l <;> rw [hpv] at h
      · cases h
      · cases hpl : parseLines s rest <;> rw [hpl] at h
        · cases h
        · cases h
          rename_i v vf
          exact ⟨v, by simp, exMap_ok_length _ _ _ hpv⟩
    · by_cases hvl : startsWith2 'v' ' ' line = true
      · rw [if_pos hvl] at h
        cases hpv : parseVertexLine s line <;> rw [hpv] at h
        · cases h
        · cases hpl : parseLines s rest <;> rw [hpl] at h
          · cases h
          · cases h
            rename_i v vf
            obtain ⟨w, hw, hwl⟩ := ih vf.1 vf.2 (by rw [hpl]) hl'
            exact ⟨w, by simp [hw], hwl⟩
      · rw [if_neg hvl] at h
        by_cases hfl : startsWith2 'f' ' ' line = true
        · rw [if_pos hfl] at h
          cases hpf : parseFaceLine line <;> rw [hpf] at h
          · cases h
          · cases hpl : parseLines s rest <;> rw [hpl] at h
            · cases h
            · cases h
              rename_i f vf
              exact ih vf.1 vf.2 (by rw [hpl]) hl'
        · rw [if_neg hfl] at h
          exact ih V F h hl'

theorem parseLines_f_mem (s : ℚ) (ls : List (List Char))
    (V : List (List ℚ)) (F : List (List ℤ)) (l : List Char)
    (h : parseLines s ls = .ok (V, F)) (hl : l ∈ ls)
    (hf : startsWith2 'f' ' ' l = true) :
    ∃ fc ∈ F, fc.length = (sliceTokens l).length := by
  induction ls generalizing V F with
  | nil => simp at hl
  | cons line rest ih =>
    simp only [parseLines] at h
    rcases List.mem_cons.mp hl with rfl | hl'
    · have hvl : startsWith2 'v' ' ' l = false := by
        cases l with
        | nil => simp [startsWith2] at hf
        | cons x xs =>
          cases xs with
          | nil => simp [startsWith2] at hf
          | cons y ys =>
            simp only [startsWith2, Bool.and_eq_true, beq_iff_eq] at hf ⊢
            simp [hf.1]
      rw [if_neg (by simp [hvl]), if_pos hf] at h
      cases hpf : parseFaceLine l <;> rw [hpf] at h
      · cases h
      · cases hpl : parseLines s rest <;> rw [hpl] at h
        · cases h
        · cases h
          rename_i f vf
          exact ⟨f, by simp, exMap_ok_length _ _ _ hpf⟩
    · by_cases hvl : startsWith2 'v' ' ' line = true
      · rw [if_pos hvl] at h
        cases hpv : parseVertexLine s line <;> rw [hpv] at h
        · cases h
        · cases hpl : parseLines s rest <;> rw [hpl] at h
          · cases h
          · cases h
            rename_i v vf
            exact ih vf.1 vf.2 (by rw [hpl]) hl'
      · rw [if_neg hvl] at h
        by_cases hfl : startsWith2 'f' ' ' line = true
        · rw [if_pos hfl] at h
          cases hpf : parseFaceLine line <;> rw [hpf] at h
          · cases h
          · cases hpl : parseLines s rest <;> rw [hpl] at h
            · cases h
            · cases h
              rename_i f vf
              obtain ⟨w, hw, hwl⟩ := ih vf.1 vf.2 (by rw [hpl]) hl'
              exact ⟨w, by simp [hw], hwl⟩
        · rw [if_neg hfl] at h
          exact ih V F h hl'

theorem hdr3do_length (nv nf : ℕ) : (hdr3do nv nf).length = 10 := rfl

theorem assembled_get_vtx (V : List (List ℚ)) (F : List (List ℤ)) (co : ℤ) (sh : String)
    (i : ℕ) (x y z : ℚ) (hi : V.get? i = some [x, y, z]) :
    (hdr3do V.length F.length ++ vmapIdx 0 V
     ++ ("TRIANGLES " ++ toString F.length) :: fmapIdx co sh 0 F).get? (10 + i) =
      some (vtxStr i (pyRound3 x) (pyRound3 y) (pyRound3 z)) := by
  have hi_lt : i < V.length := by
    rcases List.get?_eq_some.mp hi with ⟨hlt, _⟩
    exact hlt
  rw [List.append_assoc]
  rw [List.get?_append_right (by rw [hdr3do_length]; omega)]
  rw [show 10 + i - (hdr3do V.length F.length).length = i by rw [hdr3do_length]; omega]
  rw [List.get?_append (by rw [vmapIdx_length]; exact hi_lt)]
  simpa using vmapIdx_get 0 i V x y z hi

theorem assembled_get_face (V : List (List ℚ)) (F : List (List ℤ)) (co : ℤ) (sh : String)
    (j : ℕ) (a b c : ℤ) (hj : F.get? j = some [a, b, c]) :
    (hdr3do V.length F.length ++ vmapIdx 0 V
     ++ ("TRIANGLES " ++ toString F.length) :: fmapIdx co sh 0 F).get? (11 + V.length + j) =
      some (faceStr j a b c co sh) := by
  rw [List.append_assoc]
  rw [List.get?_append_right (by rw [hdr3do_length]; omega)]
  rw [show 11 + V.length + j - (hdr3do V.length F.length).length = V.length + (j + 1) by
    rw [hdr3do_length]; omega]
  rw [List.get?_append_right (by rw [vmapIdx_length]; omega)]
  rw [show V.length + (j + 1) - (vmapIdx 0 V).length = j + 1 by rw [vmapIdx_length]; omega]
  rw [List.get?_cons_succ]
  simpa using fmapIdx_get co sh 0 j F a b c hj

/-! ### The claims -/

/-- C1: for every valid source text whose parse yields `N` vertices and `M`
faces, the encoder's output is exactly the fixed record sequence — format
tag, object name, object count, `VERTICES N`, `POLYGONS M`, palette,
`TEXTURES 0`, object declaration, `TEXTURE -1`, a second `VERTICES N`, the
`N` vertex records, `TRIANGLES M`, and the `M` face records — newline-joined
with no trailing newline after the final record. -/
theorem obj23do_output_layout (content : String) (s : ℚ) (co : ℤ) (sh : String)
    (V : List (List ℚ)) (F : List (List ℤ))
    (hp : _parseobj content s = .ok (V, F))
    (hV : ∀ v ∈ V, v.length = 3) (hF : ∀ f ∈ F, f.length = 3) :
    obj23do content s co sh false =
      .ok (String.intercalate "\n"
        (hdr3do V.length F.length ++ vmapIdx 0 V
         ++ ("TRIANGLES " ++ toString F.length) :: fmapIdx co sh 0 F)) ∧
    (vmapIdx 0 V).length = V.length ∧ (fmapIdx co sh 0 F).length = F.length := by
  refine ⟨?_, vmapIdx_length 0 V, fmapIdx_length co sh 0 F⟩
  simp only [obj23do, obj23doRecords_eq content s co sh V F hp hV hF]
  rfl

theorem obj23do_output_layout_witness :
    obj23do "v 1 2 3\nf 1 1 1" 2 5 "FLAT" false =
      .ok (String.intercalate "\n"
        (hdr3do [[(2 : ℚ), 4, 6]].length [[(0 : ℤ), 0, 0]].length
         ++ vmapIdx 0 [[(2 : ℚ), 4, 6]]
         ++ ("TRIANGLES " ++ toString [[(0 : ℤ), 0, 0]].length)
            :: fmapIdx 5 "FLAT" 0 [[(0 : ℤ), 0, 0]])) ∧
    (vmapIdx 0 [[(2 : ℚ), 4, 6]]).length = [[(2 : ℚ), 4, 6]].length ∧
    (fmapIdx 5 "FLAT" 0 [[(0 : ℤ), 0, 0]]).length = [[(0 : ℤ), 0, 0]].length :=
  obj23do_output_layout "v 1 2 3\nf 1 1 1" 2 5 "FLAT" [[2, 4, 6]] [[0, 0, 0]]
    (by with_unfolding_all decide) (by with_unfolding_all decide)
    (by with_unfolding_all decide)

/-- C2: the parser consults only the part of each face token before the first
slash, parses it as an integer and stores it decremented by one; in
particular a source face `f 1 2 3` yields indices `0 1 2`. -/
theorem parse_face_indices (line t1 t2 t3 : List Char) (rest : List (List Char))
    (n1 n2 n3 : ℤ)
    (hsplit : splitOnChar ' ' line = ['f'] :: t1 :: t2 :: t3 :: rest)
    (h1 : pyInt (pyPartitionFst t1) = some n1)
    (h2 : pyInt (pyPartitionFst t2) = some n2)
    (h3 : pyInt (pyPartitionFst t3) = some n3) :
    parseFaceLine line = .ok [n1 - 1, n2 - 1, n3 - 1] ∧
    _parseobj "f 1 2 3" 1 = .ok ([], [[0, 1, 2]]) := by
  constructor
  · have hst : sliceTokens line = [t1, t2, t3] := by
      rw [sliceTokens, hsplit]
      rfl
    rw [parseFaceLine, hst]
    simp [exMap, faceTok, h1, h2, h3]
  · with_unfolding_all decide

theorem parse_face_indices_witness :
    parseFaceLine ("f 1/4/5 2/7 3".data) = .ok [1 - 1, 2 - 1, 3 - 1] ∧
    _parseobj "f 1 2 3" 1 = .ok ([], [[0, 1, 2]]) :=
  parse_face_indices ("f 1/4/5 2/7 3".data) ("1/4/5".data) ("2/7".data) ("3".data) [] 1 2 3
    (by with_unfolding_all decide) (by with_unfolding_all decide)
    (by with_unfolding_all decide) (by with_unfolding_all decide)

/-- C3: with the reverse-faces flag set, each emitted vertex has its 2nd and
3rd coordinates swapped relative to the non-reversed run, the vertex list is
not reordered (record `i` still comes from source vertex `i`), and the face
records are identical to the non-reversed run. -/
theorem reverse_swaps_yz (content : String) (s : ℚ) (co : ℤ) (sh : String)
    (V : List (List ℚ)) (F : List (List ℤ))
    (hp : _parseobj content s = .ok (V, F))
    (hV : ∀ v ∈ V, v.length = 3) (hF : ∀ f ∈ F, f.length = 3) :
    obj23doRecords content s co sh true =
      .ok (hdr3do V.length F.length ++ vmapIdx 0 (V.map swap23)
           ++ ("TRIANGLES " ++ toString F.length) :: fmapIdx co sh 0 F) ∧
    obj23doRecords content s co sh false =
      .ok (hdr3do V.length F.length ++ vmapIdx 0 V
           ++ ("TRIANGLES " ++ toString F.length) :: fmapIdx co sh 0 F) ∧
    (∀ i a b c, V.get? i = some [a, b, c] → (V.map swap23).get? i = some [a, c, b]) := by
  refine ⟨obj23doRecords_rev_eq content s co sh V F hp hV hF,
          obj23doRecords_eq content s co sh V F hp hV hF, ?_⟩
  intro i a b c hi
  rw [List.get?_map, hi]
  rfl

theorem reverse_swaps_yz_witness :
    obj23doRecords "v 1 2 3" 1 32 "G" true =
      .ok (hdr3do [[(1 : ℚ), 2, 3]].length ([] : List (List ℤ)).length
           ++ vmapIdx 0 ([[(1 : ℚ), 2, 3]].map swap23)
           ++ ("TRIANGLES " ++ toString ([] : List (List ℤ)).length)
              :: fmapIdx 32 "G" 0 ([] : List (List ℤ))) ∧
    obj23doRecords "v 1 2 3" 1 32 "G" false =
      .ok (hdr3do [[(1 : ℚ), 2, 3]].length ([] : List (List ℤ)).length
           ++ vmapIdx 0 [[(1 : ℚ), 2, 3]]
           ++ ("TRIANGLES " ++ toString ([] : List (List ℤ)).length)
              :: fmapIdx 32 "G" 0 ([] : List (List ℤ))) ∧
    (∀ i a b c, [[(1 : ℚ), 2, 3]].get? i = some [a, b, c] →
      ([[(1 : ℚ), 2, 3]].map swap23).get? i = some [a, c, b]) :=
  reverse_swaps_yz "v 1 2 3" 1 32 "G" [[1, 2, 3]] []
    (by with_unfolding_all decide) (by with_unfolding_all decide)
    (by with_unfolding_all decide)

/-- C4: each output vertex coordinate equals the corresponding source
coordinate multiplied by the scale factor and rounded to 3 decimal places
(round half to even, on the exact rational value). -/
theorem vertex_scaling_rounding (content : String) (s : ℚ) (co : ℤ) (sh : String)
    (V : List (List ℚ)) (F : List (List ℤ)) (i : ℕ) (x y z : ℚ)
    (hp : _parseobj content 1 = .ok (V, F))
    (hV : ∀ v ∈ V, v.length = 3) (hF : ∀ f ∈ F, f.length = 3)
    (hi : V.get? i = some [x, y, z]) :
    ∃ L, obj23doRecords content s co sh false = .ok L ∧
      L.get? (10 + i) =
        some (vtxStr i (pyRound3 (x * s)) (pyRound3 (y * s)) (pyRound3 (z * s))) := by
  have hps := _parseobj_scale content s V F hp
  have hV' : ∀ v ∈ V.map (List.map (· * s)), v.length = 3 := by
    intro v hv
    obtain ⟨w, hw, rfl⟩ := List.mem_map.mp hv
    simpa using hV w hw
  have hi' : (V.map (List.map (· * s))).get? i = some [x * s, y * s, z * s] := by
    rw [List.get?_map, hi]
    rfl
  exact ⟨_, obj23doRecords_eq content s co sh _ F hps hV' hF,
         assembled_get_vtx (V.map (List.map (· * s))) F co sh i _ _ _ hi'⟩

theorem vertex_scaling_rounding_witness :
    ∃ L, obj23doRecords "v 1 2 3" 2 32 "G" false = .ok L ∧
      L.get? (10 + 0) =
        some (vtxStr 0 (pyRound3 (1 * 2)) (pyRound3 (2 * 2)) (pyRound3 (3 * 2))) :=
  vertex_scaling_rounding "v 1 2 3" 2 32 "G" [[1, 2, 3]] [] 0 1 2 3
    (by with_unfolding_all decide) (by with_unfolding_all decide)
    (by with_unfolding_all decide) (by with_unfolding_all decide)

/-- C5: at scale 1 with no reversal, the output vertex records hold exactly
the parsed coordinates rounded to 3 decimals and the output face records hold
the parsed indices exactly, both in original parse order. -/
theorem roundtrip_identity (content : String) (co : ℤ) (sh : String)
    (V : List (List ℚ)) (F : List (List ℤ))
    (hp : _parseobj content 1 = .ok (V, F))
    (hV : ∀ v ∈ V, v.length = 3) (hF : ∀ f ∈ F, f.length = 3) :
    ∃ L, obj23doRecords content 1 co sh false = .ok L ∧
      (∀ i x y z, V.get? i = some [x, y, z] →
        L.get? (10 + i) = some (vtxStr i (pyRound3 x) (pyRound3 y) (pyRound3 z))) ∧
      (∀ j a b c, F.get? j = some [a, b, c] →
        L.get? (11 + V.length + j) = some (faceStr j a b c co sh)) := by
  refine ⟨_, obj23doRecords_eq content 1 co sh V F hp hV hF, ?_, ?_⟩
  · intro i x y z hi
    exact assembled_get_vtx V F co sh i x y z hi
  · intro j a b c hj
    exact assembled_get_face V F co sh j a b c hj

theorem roundtrip_identity_witness :
    ∃ L, obj23doRecords "v 1 2 3\nf 1 1 1" 1 32 "GOURAUD" false = .ok L ∧
      (∀ i x y z, [[(1 : ℚ), 2, 3]].get? i = some [x, y, z] →
        L.get? (10 + i) = some (vtxStr i (pyRound3 x) (pyRound3 y) (pyRound3 z))) ∧
      (∀ j a b c, [[(0 : ℤ), 0, 0]].get? j = some [a, b, c] →
        L.get? (11 + [[(1 : ℚ), 2, 3]].length + j) = some (faceStr j a b c 32 "GOURAUD")) :=
  roundtrip_identity "v 1 2 3\nf 1 1 1" 32 "GOURAUD" [[1, 2, 3]] [[0, 0, 0]]
    (by with_unfolding_all decide) (by with_unfolding_all decide)
    (by with_unfolding_all decide)

/-- C6 counterexample: a vertex record with only two coordinate tokens is
accepted by the parser (stored as an undersized vertex, with no explicit
malformed-vertex error); the conversion then fails with an `IndexError`
raised while formatting that vertex record, not with a parse-time error. -/
theorem short_vertex_no_parse_error :
    _parseobj "v 0 0" 1 = .ok ([[0, 0]], []) ∧
    obj23do "v 0 0" 1 32 "GOURAUD" false = .error .indexError := by
  with_unfolding_all decide

/-- C6 (amended): an input with a vertex record holding fewer than three
coordinate tokens makes the conversion fail — with a `ValueError` if a token
is not a float literal, otherwise with an `IndexError` when the undersized
vertex tuple is indexed during encoding — and no output text is produced. -/
theorem short_vertex_fails_conversion (content : String) (s : ℚ) (co : ℤ) (sh : String)
    (l : List Char) (hl : l ∈ splitOnChar '\n' content.data)
    (hv : startsWith2 'v' ' ' l = true)
    (hshort : ((splitOnChar ' ' l).drop 1).length < 3) :
    obj23do content s co sh false = .error .valueError ∨
    obj23do content s co sh false = .error .indexError := by
  cases hp : _parseobj content s with
  | error e =>
    have he : obj23do content s co sh false = .error e := by
      simp [obj23do, obj23doRecords, hp, Except.map]
    cases e
    · exact .inl he
    · exact .inr he
  | ok vf =>
    obtain ⟨V, F⟩ := vf
    obtain ⟨v, hvV, hlen⟩ := parseLines_v_mem s _ V F l hp hl hv
    have hvshort : v.length < 3 := by
      rw [hlen, sliceTokens, List.length_take]
      omega
    right
    simp [obj23do, obj23doRecords, hp, vertexLines_short 0 V ⟨v, hvV, hvshort⟩, Except.map]

theorem short_vertex_fails_conversion_witness :
    obj23do "v 0 0" 1 32 "GOURAUD" false = .error .valueError ∨
    obj23do "v 0 0" 1 32 "GOURAUD" false = .error .indexError :=
  short_vertex_fails_conversion "v 0 0" 1 32 "GOURAUD" ("v 0 0".data)
    (by with_unfolding_all decide) (by with_unfolding_all decide)
    (by with_unfolding_all decide)

/-- C7 counterexample: a face record appearing before any vertex exists and
referencing nonexistent vertex indices converts without any error, and a
face record with four index tokens is silently truncated to its first three
— no `ParseError` occurs in either case. -/
theorem face_before_vertices_succeeds :
    obj23do "f 1 2 3" 1 32 "GOURAUD" false =
      .ok "3DO 1.30\n3DONAME GENERIC\nOBJECTS 1\nVERTICES 0\nPOLYGONS 1\nPALETTE GENERIC.PAL\nTEXTURES 0\nOBJECT \"GENERIC\"\nTEXTURE -1\nVERTICES 0\nTRIANGLES 1\n0: 0 1 2 32 GOURAUD" ∧
    obj23do "v 0 0 0\nf 1 2 3 4" 1 32 "GOURAUD" false =
      .ok "3DO 1.30\n3DONAME GENERIC\nOBJECTS 1\nVERTICES 1\nPOLYGONS 1\nPALETTE GENERIC.PAL\nTEXTURES 0\nOBJECT \"GENERIC\"\nTEXTURE -1\nVERTICES 1\n0: 0.0 0.0 0.0\nTRIANGLES 1\n0: 0 1 2 32 GOURAUD" := by
  with_unfolding_all decide

/-- C7 (amended): a face record with fewer than three index tokens makes the
conversion fail before any output (ValueError for a non-integer token,
otherwise IndexError when the undersized face tuple is indexed); face
records with extra tokens are truncated to the first three, and faces before
any vertex or referencing nonexistent vertices are converted without error. -/
theorem short_face_fails_conversion (content : String) (s : ℚ) (co : ℤ) (sh : String)
    (l : List Char) (hl : l ∈ splitOnChar '\n' content.data)
    (hf : startsWith2 'f' ' ' l = true)
    (hshort : ((splitOnChar ' ' l).drop 1).length < 3) :
    obj23do content s co sh false = .error .valueError ∨
    obj23do content s co sh false = .error .indexError := by
  cases hp : _parseobj content s with
  | error e =>
    have he : obj23do content s co sh false = .error e := by
      simp [obj23do, obj23doRecords, hp, Except.map]
    cases e
    · exact .inl he
    · exact .inr he
  | ok vf =>
    obtain ⟨V, F⟩ := vf
    obtain ⟨fc, hfF, hlen⟩ := parseLines_f_mem s _ V F l hp hl hf
    have hfshort : fc.length < 3 := by
      rw [hlen, sliceTokens, List.length_take]
      omega
    right
    rcases vertexLines_cases 0 V with ⟨rs, hok⟩ | herr
    · simp [obj23do, obj23doRecords, hp, hok,
            faceLines_short co sh 0 F ⟨fc, hfF, hfshort⟩, Except.map]
    · simp [obj23do, obj23doRecords, hp, herr, Except.map]

theorem short_face_fails_conversion_witness :
    obj23do "f 1 2" 1 32 "GOURAUD" false = .error .valueError ∨
    obj23do "f 1 2" 1 32 "GOURAUD" false = .error .indexError :=
  short_face_fails_conversion "f 1 2" 1 32 "GOURAUD" ("f 1 2".data)
    (by with_unfolding_all decide) (by with_unfolding_all decide)
    (by with_unfolding_all decide)

/-- C8 counterexample: the conversion function emits the configured shading
token verbatim — passing "flat" produces the face record
`0: 0 1 2 32 flat`, not the upper-cased `0: 0 1 2 32 FLAT` that
`str.upper` (applied only by the command-line layer) would give. -/
theorem shading_not_uppercased :
    obj23doRecords "v 0 0 0\nv 1 0 0\nv 0 1 0\nf 1 2 3" 1 32 "flat" false =
      .ok ["3DO 1.30", "3DONAME GENERIC", "OBJECTS 1", "VERTICES 3", "POLYGONS 1",
           "PALETTE GENERIC.PAL", "TEXTURES 0", "OBJECT \"GENERIC\"", "TEXTURE -1",
           "VERTICES 3", "0: 0.0 0.0 0.0", "1: 1.0 0.0 0.0", "2: 0.0 1.0 0.0",
           "TRIANGLES 1", "0: 0 1 2 32 flat"] ∧
    shUpper "flat" = "FLAT" ∧ "0: 0 1 2 32 flat" ≠ "0: 0 1 2 32 FLAT" := by
  with_unfolding_all decide

/-- C8 (amended): every emitted face record carries the configured palette
index and the configured shading token verbatim; case-normalization to upper
case happens only in the command-line layer (`/SH:` is passed through
`str.upper` before the conversion function is called). -/
theorem face_record_color_shading (content : String) (s : ℚ) (co : ℤ) (sh : String)
    (V : List (List ℚ)) (F : List (List ℤ)) (j : ℕ) (a b c : ℤ)
    (hp : _parseobj content s = .ok (V, F))
    (hV : ∀ v ∈ V, v.length = 3) (hF : ∀ f ∈ F, f.length = 3)
    (hj : F.get? j = some [a, b, c]) :
    ∃ L, obj23doRecords content s co sh false = .ok L ∧
      L.get? (11 + V.length + j) = some (faceStr j a b c co sh) :=
  ⟨_, obj23doRecords_eq content s co sh V F hp hV hF,
   assembled_get_face V F co sh j a b c hj⟩

theorem face_record_color_shading_witness :
    ∃ L, obj23doRecords "v 0 0 0\nf 1 1 1" 1 7 "flat" false = .ok L ∧
      L.get? (11 + [[(0 : ℚ), 0, 0]].length + 0) = some (faceStr 0 0 0 0 7 "flat") :=
  face_record_color_shading "v 0 0 0\nf 1 1 1" 1 7 "flat" [[0, 0, 0]] [[0, 0, 0]] 0 0 0 0
    (by with_unfolding_all decide) (by with_unfolding_all decide)
    (by with_unfolding_all decide) (by with_unfolding_all decide)

/-- C9: the example `v 0 0 0` / `v 1 0 0` / `v 0 1 0` / `f 1 2 3` with all
default parameters (scale 1, color 32, shading GOURAUD, no reversal) yields
VERTICES 3, TRIANGLES 1 and the single face line `0: 0 1 2 32 GOURAUD`. -/
theorem example_default_run :
    obj23doRecords "v 0 0 0\nv 1 0 0\nv 0 1 0\nf 1 2 3" 1 32 "GOURAUD" false =
      .ok ["3DO 1.30", "3DONAME GENERIC", "OBJECTS 1", "VERTICES 3", "POLYGONS 1",
           "PALETTE GENERIC.PAL", "TEXTURES 0", "OBJECT \"GENERIC\"", "TEXTURE -1",
           "VERTICES 3", "0: 0.0 0.0 0.0", "1: 1.0 0.0 0.0", "2: 0.0 1.0 0.0",
           "TRIANGLES 1", "0: 0 1 2 32 GOURAUD"] := by
  with_unfolding_all decide

/-- C10: an input text with no line beginning `v ` or `f ` (the empty string
included) converts without error to exactly the fixed header with both
VERTICES counts 0, POLYGONS 0 and TRIANGLES 0, and no vertex or face
records. -/
theorem no_records_fixed_output (content : String) (s : ℚ) (co : ℤ) (sh : String)
    (rev : Bool)
    (h : ∀ l ∈ splitOnChar '\n' content.data,
      startsWith2 'v' ' ' l = false ∧ startsWith2 'f' ' ' l = false) :
    obj23do content s co sh rev =
      .ok ("3DO 1.30\n3DONAME GENERIC\nOBJECTS 1\nVERTICES 0\nPOLYGONS 0\nPALETTE GENERIC.PAL\nTEXTURES 0\nOBJECT \"GENERIC\"\nTEXTURE -1\nVERTICES 0\nTRIANGLES 0") := by
  have hp : _parseobj content s = .ok ([], []) := parseLines_skip s _ h
  have hrec : obj23doRecords content s co sh rev =
      .ok (hdr3do 0 0 ++ vmapIdx 0 ([] : List (List ℚ))
           ++ ("TRIANGLES " ++ toString (0 : ℕ)) :: fmapIdx co sh 0 ([] : List (List ℤ))) := by
    cases rev
    · exact obj23doRecords_eq content s co sh [] [] hp (by simp) (by simp)
    · exact obj23doRecords_rev_eq content s co sh [] [] hp (by simp) (by simp)
  simp only [obj23do, hrec]
  rfl

theorem no_records_fixed_output_witness :
    obj23do "hello\nworld" 3 9 "x" true =
      .ok ("3DO 1.30\n3DONAME GENERIC\nOBJECTS 1\nVERTICES 0\nPOLYGONS 0\nPALETTE GENERIC.PAL\nTEXTURES 0\nOBJECT \"GENERIC\"\nTEXTURE -1\nVERTICES 0\nTRIANGLES 0") :=
  no_records_fixed_output "hello\nworld" 3 9 "x" true (by with_unfolding_all decide)
